import Mathlib

/-!
# Vehicle route tracker (`src/App.jsx`)

A shallow embedding of the playback logic of the `App` component: its state
variables, the two effects, the `setInterval` callback and the `toggleRunning`
handler, followed by the properties established about them.

Conventions of the embedding.
* The React state variables become the fields of `App`.  One user or timer event is
  processed to quiescence (handler, re-render, effects) before the next one.
* The pending timer created by `setInterval` is explicit state: `App.interval` holds
  the closure of the live callback (its mutable local `i` and the values of
  `carIndex` and `decodedRoute` captured by the render that created it).
* `polyline.decode` (package `@mapbox/polyline`) and `getDistance` (package `geolib`)
  are external libraries; they are parameters, collected in `Env`.
* Coordinates are carried, never computed on; they are integers in units of the
  decoder's precision (1e-5 degree).  `getDistance` returns whole metres.
-/

namespace VehicleMap

/-- One decoded waypoint, the object `{ lat, lng }`. -/
structure LatLng where
  lat : Int
  lng : Int
deriving DecidableEq, Repr

/-- The keys of `encodedRoutes` (the two options of the route selector). -/
inductive RouteKey where
  | route1
  | route2
deriving DecidableEq, Repr

/-- The constant `encodedRoutes`. -/
def encodedRoutes : RouteKey → String
  | .route1 => "q\x7bcxDan~zMdAiBfBqCXKJ[hA_BzAsBx@kAx@aArAiBr@s@AaDIcGGyEMaEBeMYmCYsLt@StCS`CCdCKvCEFfCzAxApACHjCBbCx@Bt@EEwCG_CiBH??sA@\x7bADB`C@dA@`ACv@t@PdAz@n@`@r@l@bAt@LL"
  | .route2 => "mdezDwlhsM|AjDI`EdANfAEvA?fBH|AB^E`@aALwB?_CHkD@gC\x7d@yAB_ED\x7dC@kC@\x7b@?aAOIHSs@sAg@^_An@s@f@y@l@_Ap@mA~@y@p@u@d@s@h@o@\\q@b@_An@m@`@\x7b@j@w@t@\x7b@h@a@Xk@d@s@`@_@\\SvAK|@b@`A^r@^p@\\n@^n@`@r@f@~@f@|@YVw@Dk@Cw@?_ACiBEiB?aBAcB?a@D?|@@xA@z@C`AB^p@Bj@?HDAbB?l@A`@?f@Ad@@~@Az@o@?c@?QAGPm@A_AAs@ACnCGhBJ\\uADm@b@\x7dAnAz@fBnAnBvA~C|AtCrApBpAvChDvF`CnEjAtBdBjD|@dB`ARTl@Az@z@dBj@lA|@hB|@tAtAvBpCzEpBvD`BzCn@vA~AbDfBjDfDpFfBjDlA`CfAxBTXfA\x7d@pAcAxAgAhAaAjA_A^UeAaBq@qAg@\x7b@u@cA_B?_A[k@_@u@Yg@q@YGe@\x7d@[\x7b@c@wAYaBSuAE_AAiAD\x7dBFiCHsABgA\\mAj@y@BeA\x7b@iB]cBy@iBqA_BcA\x7b@m@cAc@aAi@iAg@\x7d@e@aAWm@Se@rAs@zAiAnAoAxAiA@sCFmAcAkBeAoBs@cB\x7b@kAg@cAi@iAWc@uAdA][]EyBGwBDgBAsACwA@mBCmB?qA@eBAiAE@sBA_B@_BAyAAiAQWo@\\[\\]D"

/-- The keys of `speedOptions`. -/
inductive Speed where
  | Low
  | Medium
  | High
deriving DecidableEq, Repr

/-- The constant `speedOptions`: the timer period in milliseconds. -/
def speedOptions : Speed → Nat
  | .Low => 1000
  | .Medium => 500
  | .High => 200

/-- The two library functions the component calls. -/
structure Env where
  polylineDecode : String → List (Int × Int)
  getDistance : LatLng → LatLng → Nat

/-- The closure of a live `setInterval` callback: the local `let i`, the `carIndex` and
`decodedRoute` of the render in which the effect ran, and the period. -/
structure Interval where
  i : Nat
  carIndex : Nat
  decodedRoute : List LatLng
  delay : Nat
deriving DecidableEq, Repr

/-- The state of the component: the seven `useState` variables and the timer behind
`intervalRef`. `carPosition` is `none` for `null` or `undefined`. -/
structure App where
  selectedRoute : RouteKey
  decodedRoute : List LatLng
  carIndex : Nat
  speed : Speed
  isRunning : Bool
  distanceCovered : Nat
  carPosition : Option LatLng
  interval : Option Interval
deriving DecidableEq, Repr

/-- The initial values passed to `useState`. -/
def initialState : App :=
  { selectedRoute := .route1, decodedRoute := [], carIndex := 0, speed := .Medium,
    isRunning := false, distanceCovered := 0, carPosition := none, interval := none }

/-- The first effect (dependencies `[selectedRoute]`): decode the selected route and
reset the playback. -/
def decodeEffect (env : Env) (s : App) : App :=
  let decoded := (env.polylineDecode (encodedRoutes s.selectedRoute)).map
    (fun p => LatLng.mk p.1 p.2)
  { s with
    decodedRoute := decoded
    carIndex := 0
    distanceCovered := 0
    isRunning := false
    carPosition := decoded[0]?
    interval := none }

/-- The cleanup of the second effect: `clearInterval(intervalRef.current)`. -/
def tickEffectCleanup (s : App) : App :=
  { s with interval := none }

/-- The body of the second effect: return early when not running or when the route is
empty, otherwise schedule the callback with `i = carIndex`. -/
def tickEffectBody (s : App) : App :=
  if !s.isRunning || s.decodedRoute.length == 0 then s
  else
    let t : Interval :=
      { i := s.carIndex, carIndex := s.carIndex, decodedRoute := s.decodedRoute,
        delay := speedOptions s.speed }
    { s with interval := some t }

/-- Whether the dependencies `[isRunning, carIndex, speed, decodedRoute]` of the second
effect differ between two renders. Arrays are compared by identity, so `newRoute` says
whether `decodedRoute` was assigned a freshly decoded array. -/
def tickDepsChanged (old new : App) (newRoute : Bool) : Bool :=
  old.isRunning != new.isRunning || old.carIndex != new.carIndex ||
    old.speed != new.speed || newRoute

/-- The re-render after a state update: when its dependencies changed the second effect
is cleaned up and run again. -/
def commit (old new : App) (newRoute : Bool) : App :=
  if tickDepsChanged old new newRoute then tickEffectBody (tickEffectCleanup new) else new

/-- The callback given to `setInterval`, run on state `s` with its closure `t`. -/
def intervalCallback (env : Env) (s : App) (t : Interval) : App :=
  let i := t.i + 1
  if h : i ≥ t.decodedRoute.length then
    { s with interval := none, isRunning := false }
  else
    let s1 : App :=
      { s with
        carPosition := t.decodedRoute[i]?
        carIndex := i
        interval := some { t with i := i } }
    if h2 : t.carIndex < i then
      let dist := env.getDistance
        (t.decodedRoute.get ⟨t.carIndex, by omega⟩) (t.decodedRoute.get ⟨i, by omega⟩)
      { s1 with distanceCovered := s1.distanceCovered + dist }
    else s1

/-- The handler `toggleRunning`. The comparison is made on integers because
`decodedRoute.length - 1` is `-1` for an empty route. -/
def toggleRunning (s : App) : App :=
  let s1 : App :=
    if (s.carIndex : Int) ≥ (s.decodedRoute.length : Int) - 1 then
      { s with carIndex := 0, distanceCovered := 0 }
    else s
  { s1 with isRunning := !s.isRunning }

/-- The route selector set to key `k`: `setSelectedRoute(k)`, then the first effect on
the new key, then the re-render with the freshly decoded route. -/
def selectRoute (env : Env) (s : App) (k : RouteKey) : App :=
  commit s (decodeEffect env { s with selectedRoute := k }) true

/-- The events of the component: the start/pause button, a firing of the timer, the
speed selector and the route selector. -/
inductive Event where
  | toggle
  | tick
  | setSpeed (v : Speed)
  | setSelectedRoute (k : RouteKey)
deriving DecidableEq, Repr

/-- One event processed to quiescence. A timer firing is possible only while an
interval is live. Selecting the key already selected changes no state. -/
def step (env : Env) (s : App) : Event → App
  | .toggle => commit s (toggleRunning s) false
  | .tick =>
    match s.interval with
    | none => s
    | some t => commit s (intervalCallback env s t) false
  | .setSpeed v => commit s { s with speed := v } false
  | .setSelectedRoute k => if k = s.selectedRoute then s else selectRoute env s k

/-- A finite sequence of events. -/
def run (env : Env) (s : App) (es : List Event) : App :=
  es.foldl (step env) s

/-- The component after mounting: both effects have run on the initial state. -/
def mount (env : Env) : App :=
  commit initialState (decodeEffect env initialState) true

/-- The states the component can be in: those reached by a finite sequence of events
after some route was selected (mounting selects `route1`). -/
def Reachable (env : Env) (s : App) : Prop :=
  ∃ (s0 : App) (k : RouteKey) (es : List Event), s = run env (selectRoute env s0 k) es

/-- The closure of a callback scheduled by the render of state `s`, after `n` firings
that did not reschedule it. -/
def closureOf (s : App) (n : Nat) : Interval :=
  { i := s.carIndex + n, carIndex := s.carIndex, decodedRoute := s.decodedRoute,
    delay := speedOptions s.speed }

/-- The reachable states in which every route selected so far decoded to at least one
point. -/
def ReachableNonEmpty (env : Env) (s : App) : Prop :=
  ∃ (s0 : App) (k : RouteKey) (es : List Event),
    env.polylineDecode (encodedRoutes k) ≠ [] ∧
    (∀ k2, Event.setSelectedRoute k2 ∈ es → env.polylineDecode (encodedRoutes k2) ≠ []) ∧
    s = run env (selectRoute env s0 k) es

/-- The timer the second effect leaves behind for the current render. -/
def expectedInterval (s : App) : Option Interval :=
  if !s.isRunning || s.decodedRoute.length == 0 then none else some (closureOf s 0)

/-- The value `progress` computed in the render, as an exact rational. -/
def progress (s : App) : ℚ :=
  ((s.carIndex + 1 : ℚ) / (s.decodedRoute.length : ℚ)) * 100

/-- The distance of leg `j` of a route: `getDistance(route[j], route[j+1])`, and `0`
when the route has no such leg. -/
def legDistance (env : Env) (route : List LatLng) (j : Nat) : Nat :=
  match route[j]?, route[j + 1]? with
  | some a, some b => env.getDistance a b
  | _, _ => 0

/-- The sum of the distances of the first `k` legs of a route. -/
def pathDistance (env : Env) (route : List LatLng) (k : Nat) : Nat :=
  ∑ j in Finset.range k, legDistance env route j

/-- A fixture: a decoder returning the given points whatever the string, and the
taxicab distance. -/
def fixture (pts : List (Int × Int)) : Env :=
  { polylineDecode := fun _ => pts
    getDistance := fun a b => (a.lat - b.lat).natAbs + (a.lng - b.lng).natAbs }

/-- A fixture with a route of two waypoints. -/
def twoPoints : Env := fixture [(0, 0), (3, 4)]

/-- A fixture with a route of three waypoints. -/
def threePoints : Env := fixture [(0, 0), (3, 4), (3, 9)]

/-- A fixture with a route of a single waypoint. -/
def onePoint : Env := fixture [(5, 5)]

/-! ## The re-render leaves every state variable alone -/

theorem commit_eq (o n : App) (b : Bool) :
    commit o n b = n ∨ commit o n b = { n with interval := expectedInterval n } := by
  unfold commit tickEffectBody tickEffectCleanup expectedInterval
  by_cases hc : tickDepsChanged o n b = true
  · right
    by_cases hr : (!n.isRunning || n.decodedRoute.length == 0) = true
    · simp only [hc, hr, if_true]
    · simp only [hc, hr, if_true, if_false]
      rfl
  · left
    simp only [hc, if_false]
    rfl

theorem commit_changed (o n : App) (b : Bool) (hc : tickDepsChanged o n b = true) :
    commit o n b = { n with interval := expectedInterval n } := by
  unfold commit tickEffectBody tickEffectCleanup expectedInterval
  by_cases hr : (!n.isRunning || n.decodedRoute.length == 0) = true
  · simp only [hc, hr, if_true]
  · simp only [hc, hr, if_true, if_false]
    rfl

theorem mount_eq_selectRoute (env : Env) :
    mount env = selectRoute env initialState .route1 := rfl

/-! ## One event at a time -/

theorem step_toggle (env : Env) (s : App) :
    step env s .toggle =
      { toggleRunning s with interval := expectedInterval (toggleRunning s) } := by
  show commit s (toggleRunning s) false = _
  apply commit_changed
  simp [tickDepsChanged, toggleRunning]

theorem expectedInterval_running (s : App) (hr : s.isRunning = true)
    (hne : s.decodedRoute.length ≠ 0) :
    expectedInterval s = some (closureOf s 0) := by
  simp [expectedInterval, hr, hne]

theorem expectedInterval_stopped (s : App) (hr : s.isRunning = false) :
    expectedInterval s = none := by
  simp [expectedInterval, hr]

theorem legDistance_eq (env : Env) (route : List LatLng) (j : Nat)
    (h : j + 1 < route.length) :
    legDistance env route j =
      env.getDistance (route.get ⟨j, by omega⟩) (route.get ⟨j + 1, h⟩) := by
  have h0 : route[j]? = some (route.get ⟨j, by omega⟩) := by
    simp [List.getElem?_eq_getElem]
  have h1 : route[j + 1]? = some (route.get ⟨j + 1, h⟩) := by
    simp [List.getElem?_eq_getElem, h]
  simp only [legDistance, h0, h1]

theorem step_tick_advance (env : Env) (s : App) (hs : s.interval = expectedInterval s)
    (hr : s.isRunning = true) (hlt : s.carIndex + 1 < s.decodedRoute.length) :
    step env s .tick =
      { s with
        carIndex := s.carIndex + 1
        carPosition := s.decodedRoute[s.carIndex + 1]?
        distanceCovered := s.distanceCovered + legDistance env s.decodedRoute s.carIndex
        interval := some (closureOf { s with carIndex := s.carIndex + 1 } 0) } := by
  have hne : s.decodedRoute.length ≠ 0 := by omega
  have ht := hs.trans (expectedInterval_running s hr hne)
  have hcb : intervalCallback env s (closureOf s 0) =
      { s with
        carIndex := s.carIndex + 1
        carPosition := s.decodedRoute[s.carIndex + 1]?
        distanceCovered := s.distanceCovered + legDistance env s.decodedRoute s.carIndex
        interval := some (closureOf s 1) } := by
    have h1 : ¬ (s.carIndex + 1 ≥ s.decodedRoute.length) := by omega
    have h2 : s.carIndex < s.carIndex + 1 := by omega
    simp only [intervalCallback, closureOf, Nat.add_zero, dif_neg h1, dif_pos h2,
      legDistance_eq env _ _ hlt]
  simp only [step, ht, hcb]
  rw [commit_changed]
  · simp [expectedInterval, closureOf, hr, hne]
  · simp [tickDepsChanged]

theorem step_tick_stop (env : Env) (s : App) (hs : s.interval = expectedInterval s)
    (hr : s.isRunning = true) (hne : s.decodedRoute.length ≠ 0)
    (hge : s.decodedRoute.length ≤ s.carIndex + 1) :
    step env s .tick = { s with isRunning := false, interval := none } := by
  have ht := hs.trans (expectedInterval_running s hr hne)
  have hcb : intervalCallback env s (closureOf s 0) =
      { s with isRunning := false, interval := none } := by
    have h1 : s.carIndex + 1 ≥ s.decodedRoute.length := hge
    simp only [intervalCallback, closureOf, Nat.add_zero, dif_pos h1]
  simp only [step, ht, hcb]
  rw [commit_changed]
  · simp [expectedInterval]
  · simp [tickDepsChanged, hr]

theorem step_tick_idle (env : Env) (s : App) (hs : s.interval = none) :
    step env s .tick = s := by
  simp only [step, hs]

theorem step_setSpeed (env : Env) (s : App) (v : Speed) :
    step env s (.setSpeed v) =
      { s with speed := v, interval := expectedInterval { s with speed := v } } ∨
    step env s (.setSpeed v) = s := by
  by_cases hv : v = s.speed
  · right
    subst hv
    simp [step, commit, tickDepsChanged]
  · left
    show commit s { s with speed := v } false = _
    apply commit_changed
    have hv2 : s.speed ≠ v := fun h => hv h.symm
    simp [tickDepsChanged, hv2]

theorem selectRoute_eq (env : Env) (s : App) (k : RouteKey) :
    selectRoute env s k =
      { s with
        selectedRoute := k
        decodedRoute := (env.polylineDecode (encodedRoutes k)).map (fun p => LatLng.mk p.1 p.2)
        carIndex := 0
        distanceCovered := 0
        isRunning := false
        carPosition := ((env.polylineDecode (encodedRoutes k)).map
          (fun p => LatLng.mk p.1 p.2))[0]?
        interval := none } := by
  unfold selectRoute
  rw [commit_changed _ _ _ (by simp [tickDepsChanged])]
  simp [decodeEffect, expectedInterval]

/-! ## The timer always belongs to the current render -/

theorem selectRoute_synced (env : Env) (s : App) (k : RouteKey) :
    (selectRoute env s k).interval = expectedInterval (selectRoute env s k) := by
  rw [selectRoute_eq]
  simp [expectedInterval]

theorem step_synced (env : Env) (s : App) (e : Event)
    (hs : s.interval = expectedInterval s) :
    (step env s e).interval = expectedInterval (step env s e) := by
  cases e with
  | toggle => rw [step_toggle]; rfl
  | tick =>
    cases hi : s.interval with
    | none => rw [step_tick_idle env s hi, ← hs, hi]
    | some t =>
      have hr : s.isRunning = true := by
        by_contra h
        rw [expectedInterval_stopped s (by simpa using h)] at hs
        rw [hs] at hi
        cases hi
      have hne : s.decodedRoute.length ≠ 0 := by
        intro h
        simp [expectedInterval, h] at hs
        rw [hs] at hi
        cases hi
      by_cases hlt : s.carIndex + 1 < s.decodedRoute.length
      · rw [step_tick_advance env s hs hr hlt]
        simp [expectedInterval, closureOf, hr, hne]
      · rw [step_tick_stop env s hs hr hne (by omega)]
        simp [expectedInterval]
  | setSpeed v =>
    rcases step_setSpeed env s v with h | h
    · rw [h]; rfl
    · rw [h]; exact hs
  | setSelectedRoute k =>
    by_cases hk : k = s.selectedRoute
    · simp only [step, hk, if_true]
      exact hs
    · simp only [step, hk, if_false]
      exact selectRoute_synced env s k

theorem run_synced (env : Env) (es : List Event) (s : App)
    (hs : s.interval = expectedInterval s) :
    (run env s es).interval = expectedInterval (run env s es) := by
  induction es generalizing s with
  | nil => exact hs
  | cons e es ih => exact ih (step env s e) (step_synced env s e hs)

theorem reachable_synced (env : Env) (s : App) (h : Reachable env s) :
    s.interval = expectedInterval s := by
  obtain ⟨s0, k, es, rfl⟩ := h
  exact run_synced env es _ (selectRoute_synced env s0 k)

/-! ## The start/pause handler -/

theorem toggleRunning_at_end (s : App) (h : s.decodedRoute.length ≤ s.carIndex + 1) :
    toggleRunning s =
      { s with carIndex := 0, distanceCovered := 0, isRunning := !s.isRunning } := by
  have hc : (s.carIndex : Int) ≥ (s.decodedRoute.length : Int) - 1 := by omega
  simp only [toggleRunning, if_pos hc]

theorem toggleRunning_before_end (s : App) (h : s.carIndex + 1 < s.decodedRoute.length) :
    toggleRunning s = { s with isRunning := !s.isRunning } := by
  have hc : ¬ ((s.carIndex : Int) ≥ (s.decodedRoute.length : Int) - 1) := by omega
  simp only [toggleRunning, if_neg hc]

/-! ## The cursor stays inside the route -/

theorem step_in_bounds (env : Env) (s : App) (e : Event)
    (hs : s.interval = expectedInterval s)
    (hb : s.carIndex < s.decodedRoute.length)
    (he : ∀ k, e = .setSelectedRoute k → env.polylineDecode (encodedRoutes k) ≠ []) :
    (step env s e).carIndex < (step env s e).decodedRoute.length := by
  cases e with
  | toggle =>
    rw [step_toggle]
    by_cases h : s.carIndex + 1 < s.decodedRoute.length
    · rw [toggleRunning_before_end s h]
      exact hb
    · rw [toggleRunning_at_end s (by omega)]
      show 0 < s.decodedRoute.length
      omega
  | tick =>
    cases hi : s.interval with
    | none => rw [step_tick_idle env s hi]; exact hb
    | some t =>
      have hr : s.isRunning = true := by
        by_contra h
        rw [expectedInterval_stopped s (by simpa using h)] at hs
        rw [hs] at hi
        cases hi
      by_cases hlt : s.carIndex + 1 < s.decodedRoute.length
      · rw [step_tick_advance env s hs hr hlt]
        exact hlt
      · rw [step_tick_stop env s hs hr (by omega) (by omega)]
        exact hb
  | setSpeed v =>
    rcases step_setSpeed env s v with h | h
    · rw [h]; exact hb
    · rw [h]; exact hb
  | setSelectedRoute k =>
    by_cases hk : k = s.selectedRoute
    · simp only [step, hk, if_true]
      exact hb
    · simp only [step, hk, if_false]
      rw [selectRoute_eq]
      show 0 < ((env.polylineDecode (encodedRoutes k)).map _).length
      have := he k rfl
      rw [List.length_map]
      exact List.length_pos.mpr this

theorem run_in_bounds (env : Env) (es : List Event) (s : App)
    (hs : s.interval = expectedInterval s)
    (hb : s.carIndex < s.decodedRoute.length)
    (hes : ∀ k, Event.setSelectedRoute k ∈ es → env.polylineDecode (encodedRoutes k) ≠ []) :
    (run env s es).carIndex < (run env s es).decodedRoute.length := by
  induction es generalizing s with
  | nil => exact hb
  | cons e es ih =>
    have h1 := step_synced env s e hs
    have h2 := step_in_bounds env s e hs hb
      (fun k hk => hes k (by rw [hk]; exact List.mem_cons_self _ _))
    exact ih (step env s e) h1 h2 (fun k hk => hes k (List.mem_cons_of_mem _ hk))

theorem reachableNonEmpty_in_bounds (env : Env) (s : App) (h : ReachableNonEmpty env s) :
    s.carIndex < s.decodedRoute.length := by
  obtain ⟨s0, k, es, hk, hes, rfl⟩ := h
  apply run_in_bounds env es _ (selectRoute_synced env s0 k) _ hes
  rw [selectRoute_eq]
  show 0 < ((env.polylineDecode (encodedRoutes k)).map _).length
  rw [List.length_map]
  exact List.length_pos.mpr hk

theorem reachableNonEmpty_reachable (env : Env) (s : App) (h : ReachableNonEmpty env s) :
    Reachable env s := by
  obtain ⟨s0, k, es, _, _, rfl⟩ := h
  exact ⟨s0, k, es, rfl⟩

/-! ## Playback -/

theorem run_cons (env : Env) (s : App) (e : Event) (es : List Event) :
    run env s (e :: es) = run env (step env s e) es := rfl

theorem run_append (env : Env) (s : App) (es fs : List Event) :
    run env s (es ++ fs) = run env (run env s es) fs := by
  simp [run, List.foldl_append]

theorem run_ticks (env : Env) (j : Nat) (s : App)
    (hs : s.interval = expectedInterval s) (hr : s.isRunning = true)
    (hj : s.carIndex + j < s.decodedRoute.length) :
    (run env s (List.replicate j .tick)).carIndex = s.carIndex + j ∧
    (run env s (List.replicate j .tick)).isRunning = true ∧
    (run env s (List.replicate j .tick)).decodedRoute = s.decodedRoute ∧
    (run env s (List.replicate j .tick)).distanceCovered =
      s.distanceCovered +
        ∑ i in Finset.range j, legDistance env s.decodedRoute (s.carIndex + i) ∧
    (run env s (List.replicate j .tick)).interval =
      expectedInterval (run env s (List.replicate j .tick)) := by
  induction j generalizing s with
  | zero => exact ⟨rfl, hr, rfl, by simp [run], hs⟩
  | succ j ih =>
    have hlt : s.carIndex + 1 < s.decodedRoute.length := by omega
    have hstep := step_tick_advance env s hs hr hlt
    have hsync := step_synced env s .tick hs
    have hc : (step env s .tick).carIndex = s.carIndex + 1 := by rw [hstep]
    have hrun : (step env s .tick).isRunning = true := by rw [hstep]; exact hr
    have hroute : (step env s .tick).decodedRoute = s.decodedRoute := by rw [hstep]
    have hdist : (step env s .tick).distanceCovered =
        s.distanceCovered + legDistance env s.decodedRoute s.carIndex := by rw [hstep]
    rw [List.replicate_succ, run_cons]
    obtain ⟨h1, h2, h3, h4, h5⟩ := ih (step env s .tick) hsync hrun (by rw [hc, hroute]; omega)
    refine ⟨by rw [h1, hc]; omega, h2, by rw [h3, hroute], ?_, h5⟩
    rw [h4, hdist, hroute, hc, Finset.sum_range_succ']
    have hsum : ∑ i in Finset.range j, legDistance env s.decodedRoute (s.carIndex + 1 + i) =
        ∑ i in Finset.range j, legDistance env s.decodedRoute (s.carIndex + (i + 1)) := by
      apply Finset.sum_congr rfl
      intro i _
      rw [Nat.add_assoc, Nat.add_comm 1 i]
    rw [hsum, Nat.add_zero]
    omega

theorem start_from_idle (env : Env) (s : App) (h0 : s.carIndex = 0)
    (hr : s.isRunning = false) (hN : 2 ≤ s.decodedRoute.length) :
    (step env s .toggle).carIndex = 0 ∧ (step env s .toggle).isRunning = true ∧
    (step env s .toggle).decodedRoute = s.decodedRoute ∧
    (step env s .toggle).distanceCovered = s.distanceCovered ∧
    (step env s .toggle).interval = expectedInterval (step env s .toggle) := by
  rw [step_toggle, toggleRunning_before_end s (by omega)]
  refine ⟨h0, ?_, rfl, rfl, rfl⟩
  show (!s.isRunning) = true
  rw [hr]
  rfl

theorem playback_from_idle (env : Env) (s : App) (j : Nat) (h0 : s.carIndex = 0)
    (hr : s.isRunning = false) (hN : 2 ≤ s.decodedRoute.length)
    (hj : j ≤ s.decodedRoute.length - 1) :
    (run env s (.toggle :: List.replicate j .tick)).carIndex = j ∧
    (run env s (.toggle :: List.replicate j .tick)).isRunning = true ∧
    (run env s (.toggle :: List.replicate j .tick)).decodedRoute = s.decodedRoute ∧
    (run env s (.toggle :: List.replicate j .tick)).distanceCovered =
      s.distanceCovered + pathDistance env s.decodedRoute j ∧
    (run env s (.toggle :: List.replicate j .tick)).interval =
      expectedInterval (run env s (.toggle :: List.replicate j .tick)) := by
  obtain ⟨a1, a2, a3, a4, a5⟩ := start_from_idle env s h0 hr hN
  rw [run_cons]
  obtain ⟨h1, h2, h3, h4, h5⟩ :=
    run_ticks env j (step env s .toggle) a5 a2 (by rw [a1, a3]; omega)
  refine ⟨by rw [h1, a1]; omega, h2, by rw [h3, a3], ?_, h5⟩
  rw [h4, a4, a3, a1]
  simp [pathDistance]

/-! ## The properties of the playback engine -/

/-- C1: in every state reached, after a route that decodes to at least one point was
selected, by start/pause toggles, timer ticks, speed changes and switches to other
non-empty routes, the cursor is in bounds: `0 ≤ carIndex < decodedRoute.length`. -/
theorem cursor_in_bounds (env : Env) (s : App) (h : ReachableNonEmpty env s) :
    0 ≤ s.carIndex ∧ s.carIndex < s.decodedRoute.length :=
  ⟨Nat.zero_le _, reachableNonEmpty_in_bounds env s h⟩

theorem cursor_in_bounds_witness :
    ReachableNonEmpty twoPoints (run twoPoints (selectRoute twoPoints initialState .route1)
      [.toggle, .tick, .tick, .toggle, .setSelectedRoute .route2, .setSpeed .High,
        .toggle, .tick]) ∧
    (0 ≤ (run twoPoints (selectRoute twoPoints initialState .route1)
      [.toggle, .tick, .tick, .toggle, .setSelectedRoute .route2, .setSpeed .High,
        .toggle, .tick]).carIndex ∧
     (run twoPoints (selectRoute twoPoints initialState .route1)
      [.toggle, .tick, .tick, .toggle, .setSelectedRoute .route2, .setSpeed .High,
        .toggle, .tick]).carIndex <
     (run twoPoints (selectRoute twoPoints initialState .route1)
      [.toggle, .tick, .tick, .toggle, .setSelectedRoute .route2, .setSpeed .High,
        .toggle, .tick]).decodedRoute.length) :=
  have h : ReachableNonEmpty twoPoints (run twoPoints
      (selectRoute twoPoints initialState .route1)
      [.toggle, .tick, .tick, .toggle, .setSelectedRoute .route2, .setSpeed .High,
        .toggle, .tick]) :=
    ⟨initialState, .route1, _, by simp [twoPoints, fixture],
      fun _ _ => by simp [twoPoints, fixture], rfl⟩
  ⟨h, cursor_in_bounds twoPoints _ h⟩

/-- C2, as stated, fails: on a route of two waypoints, after `start()` from Idle and
exactly `N - 1 = 1` tick the cursor is on the last waypoint but `isRunning` is still
`true`, so the state is not Completed. -/
theorem not_completed_after_N_minus_1_ticks :
    (mount twoPoints).decodedRoute.length = 2 ∧
    (mount twoPoints).carIndex = 0 ∧ (mount twoPoints).isRunning = false ∧
    (mount twoPoints).distanceCovered = 0 ∧
    ¬ ((run twoPoints (mount twoPoints) (.toggle :: List.replicate (2 - 1) .tick)).carIndex
          = 2 - 1 ∧
       (run twoPoints (mount twoPoints) (.toggle :: List.replicate (2 - 1) .tick)).isRunning
          = false) := by
  decide

/-- C2, amended: for every route of length `N ≥ 2`, starting from Idle and calling
`start()`, after `j` ticks (`j ≤ N - 1`) the cursor is at `j` (each tick advanced it by
exactly 1) and the engine is still running, also at `j = N - 1`; the state after
exactly `N` ticks is Completed: `carIndex = N - 1` and `isRunning = false`. -/
theorem completed_after_N_ticks (env : Env) (s : App) (h0 : s.carIndex = 0)
    (hr : s.isRunning = false) (hN : 2 ≤ s.decodedRoute.length) :
    (∀ j, j ≤ s.decodedRoute.length - 1 →
      (run env s (.toggle :: List.replicate j .tick)).carIndex = j ∧
      (run env s (.toggle :: List.replicate j .tick)).isRunning = true) ∧
    (run env s (.toggle :: List.replicate s.decodedRoute.length .tick)).carIndex =
      s.decodedRoute.length - 1 ∧
    (run env s (.toggle :: List.replicate s.decodedRoute.length .tick)).isRunning =
      false := by
  refine ⟨fun j hj => ?_, ?_⟩
  · obtain ⟨h1, h2, _⟩ := playback_from_idle env s j h0 hr hN hj
    exact ⟨h1, h2⟩
  · obtain ⟨m, hm⟩ : ∃ m, s.decodedRoute.length = m + 1 := ⟨s.decodedRoute.length - 1, by omega⟩
    obtain ⟨h1, h2, h3, _, h5⟩ := playback_from_idle env s m h0 hr hN (by omega)
    have hsplit : (Event.toggle :: List.replicate (m + 1) Event.tick) =
        (Event.toggle :: List.replicate m Event.tick) ++ [Event.tick] := by
      rw [List.replicate_succ', List.cons_append]
    rw [hm, hsplit, run_append]
    have hstop := step_tick_stop env _ h5 h2 (by rw [h3]; omega) (by rw [h3, h1]; omega)
    have hrun1 : ∀ t : App, run env t [Event.tick] = step env t .tick := fun _ => rfl
    rw [hrun1, hstop]
    exact ⟨by show (run env s (.toggle :: List.replicate m .tick)).carIndex = m + 1 - 1
              rw [h1]; rfl, rfl⟩

theorem completed_after_N_ticks_witness :
    (mount threePoints).carIndex = 0 ∧ (mount threePoints).isRunning = false ∧
    2 ≤ (mount threePoints).decodedRoute.length ∧
    ((∀ j, j ≤ (mount threePoints).decodedRoute.length - 1 →
      (run threePoints (mount threePoints) (.toggle :: List.replicate j .tick)).carIndex = j ∧
      (run threePoints (mount threePoints) (.toggle :: List.replicate j .tick)).isRunning
        = true) ∧
    (run threePoints (mount threePoints)
      (.toggle :: List.replicate (mount threePoints).decodedRoute.length .tick)).carIndex =
      (mount threePoints).decodedRoute.length - 1 ∧
    (run threePoints (mount threePoints)
      (.toggle :: List.replicate (mount threePoints).decodedRoute.length .tick)).isRunning =
      false) :=
  ⟨by decide, by decide, by decide,
    completed_after_N_ticks threePoints (mount threePoints) (by decide) (by decide)
      (by decide)⟩

/-- C3: for every route of length `N ≥ 2` and every `k ≤ N - 1`, after `start()` from
Idle followed by `k` ticks, `distanceCovered` is the sum of
`getDistance(route[j], route[j+1])` for `j = 0 .. k-1`; for `k = N - 1` this is the sum
over all consecutive waypoints. -/
theorem distance_is_sum_of_legs (env : Env) (s : App) (k : Nat) (h0 : s.carIndex = 0)
    (hr : s.isRunning = false) (hd : s.distanceCovered = 0)
    (hN : 2 ≤ s.decodedRoute.length) (hk : k ≤ s.decodedRoute.length - 1) :
    (run env s (.toggle :: List.replicate k .tick)).distanceCovered =
      ∑ j in Finset.range k, legDistance env s.decodedRoute j := by
  obtain ⟨_, _, _, h4, _⟩ := playback_from_idle env s k h0 hr hN hk
  rw [h4, hd, Nat.zero_add]
  rfl

theorem distance_is_sum_of_legs_witness :
    (mount threePoints).carIndex = 0 ∧ (mount threePoints).isRunning = false ∧
    (mount threePoints).distanceCovered = 0 ∧
    2 ≤ (mount threePoints).decodedRoute.length ∧
    2 ≤ (mount threePoints).decodedRoute.length - 1 ∧
    (run threePoints (mount threePoints) (.toggle :: List.replicate 2 .tick)).distanceCovered
      = ∑ j in Finset.range 2, legDistance threePoints (mount threePoints).decodedRoute j :=
  ⟨by decide, by decide, by decide, by decide, by decide,
    distance_is_sum_of_legs threePoints (mount threePoints) 2 (by decide) (by decide)
      (by decide) (by decide) (by decide)⟩

/-- C4, as stated, fails: on a route of three waypoints, after `start()` and two ticks
the engine is running while the cursor is on the final waypoint. -/
theorem running_on_final_waypoint :
    ReachableNonEmpty threePoints (run threePoints (mount threePoints) [.toggle, .tick, .tick]) ∧
    (run threePoints (mount threePoints) [.toggle, .tick, .tick]).isRunning = true ∧
    ¬ ((run threePoints (mount threePoints) [.toggle, .tick, .tick]).carIndex <
        (run threePoints (mount threePoints) [.toggle, .tick, .tick]).decodedRoute.length - 1) :=
  ⟨⟨initialState, .route1, _, by simp [threePoints, fixture],
      fun _ _ => by simp [threePoints, fixture], rfl⟩, by decide, by decide⟩

/-- C4, amended: in every state reachable over non-empty routes, `isRunning = true`
implies `carIndex ≤ decodedRoute.length - 1`; the engine can be running on the final
waypoint, and then the next tick only stops it: `isRunning` becomes `false`, the timer
is cleared, and `carIndex`, `distanceCovered` and `carPosition` keep their values. -/
theorem running_stops_at_final_waypoint (env : Env) (s : App)
    (h : ReachableNonEmpty env s) (hr : s.isRunning = true) :
    s.carIndex ≤ s.decodedRoute.length - 1 ∧
    (s.carIndex = s.decodedRoute.length - 1 →
      (step env s .tick).isRunning = false ∧
      (step env s .tick).interval = none ∧
      (step env s .tick).carIndex = s.carIndex ∧
      (step env s .tick).distanceCovered = s.distanceCovered ∧
      (step env s .tick).carPosition = s.carPosition) := by
  have hb := reachableNonEmpty_in_bounds env s h
  have hs := reachable_synced env s (reachableNonEmpty_reachable env s h)
  refine ⟨by omega, fun hlast => ?_⟩
  rw [step_tick_stop env s hs hr (by omega) (by omega)]
  exact ⟨rfl, rfl, rfl, rfl, rfl⟩

theorem running_stops_at_final_waypoint_witness :
    ReachableNonEmpty twoPoints (run twoPoints (mount twoPoints) [.toggle, .tick]) ∧
    (run twoPoints (mount twoPoints) [.toggle, .tick]).isRunning = true ∧
    (run twoPoints (mount twoPoints) [.toggle, .tick]).carIndex ≤
      (run twoPoints (mount twoPoints) [.toggle, .tick]).decodedRoute.length - 1 ∧
    ((run twoPoints (mount twoPoints) [.toggle, .tick]).carIndex =
        (run twoPoints (mount twoPoints) [.toggle, .tick]).decodedRoute.length - 1 →
      (step twoPoints (run twoPoints (mount twoPoints) [.toggle, .tick]) .tick).isRunning
        = false ∧
      (step twoPoints (run twoPoints (mount twoPoints) [.toggle, .tick]) .tick).interval
        = none ∧
      (step twoPoints (run twoPoints (mount twoPoints) [.toggle, .tick]) .tick).carIndex =
        (run twoPoints (mount twoPoints) [.toggle, .tick]).carIndex ∧
      (step twoPoints (run twoPoints (mount twoPoints) [.toggle, .tick]) .tick).distanceCovered
        = (run twoPoints (mount twoPoints) [.toggle, .tick]).distanceCovered ∧
      (step twoPoints (run twoPoints (mount twoPoints) [.toggle, .tick]) .tick).carPosition =
        (run twoPoints (mount twoPoints) [.toggle, .tick]).carPosition) :=
  have h : ReachableNonEmpty twoPoints (run twoPoints (mount twoPoints) [.toggle, .tick]) :=
    ⟨initialState, .route1, _, by simp [twoPoints, fixture],
      fun _ _ => by simp [twoPoints, fixture], rfl⟩
  ⟨h, by decide, running_stops_at_final_waypoint twoPoints _ h (by decide)⟩

/-- C5 at its failing input: on a route of two waypoints the state after `start()` and
one tick is reachable and running with the cursor on the last waypoint, and `pause()`
there stops the engine but resets `carIndex` from 1 to 0 and `distanceCovered` from 7 to
0, where the claim says both keep their values. -/
theorem pause_on_final_waypoint_resets :
    Reachable twoPoints (run twoPoints (mount twoPoints) [.toggle, .tick]) ∧
    (run twoPoints (mount twoPoints) [.toggle, .tick]).isRunning = true ∧
    (run twoPoints (mount twoPoints) [.toggle, .tick]).carIndex = 1 ∧
    (run twoPoints (mount twoPoints) [.toggle, .tick]).distanceCovered = 7 ∧
    (step twoPoints (run twoPoints (mount twoPoints) [.toggle, .tick]) .toggle).isRunning
      = false ∧
    (step twoPoints (run twoPoints (mount twoPoints) [.toggle, .tick]) .toggle).carIndex = 0 ∧
    (step twoPoints (run twoPoints (mount twoPoints) [.toggle, .tick]) .toggle).distanceCovered
      = 0 :=
  ⟨⟨initialState, .route1, _, rfl⟩, by decide, by decide, by decide, by decide, by decide,
    by decide⟩

/-- The pause path before the final waypoint: the engine stops, no timer is pending, and
`carIndex` and `distanceCovered` keep their values. -/
theorem pause_before_final_waypoint (env : Env) (s : App) (hr : s.isRunning = true)
    (hlt : s.carIndex < s.decodedRoute.length - 1) :
    (step env s .toggle).isRunning = false ∧
    (step env s .toggle).interval = none ∧
    (step env s .toggle).carIndex = s.carIndex ∧
    (step env s .toggle).distanceCovered = s.distanceCovered := by
  rw [step_toggle, toggleRunning_before_end s (by omega)]
  refine ⟨?_, ?_, rfl, rfl⟩
  · show (!s.isRunning) = false
    rw [hr]; rfl
  · show expectedInterval _ = none
    apply expectedInterval_stopped
    show (!s.isRunning) = false
    rw [hr]; rfl

/-- C6: for every route of length `N ≥ 2`, `start()` in a state with `isRunning = false`
and `carIndex = N - 1` yields `carIndex = 0`, `distanceCovered = 0` and
`isRunning = true`; in a state with `isRunning = false` and `carIndex < N - 1` it yields
`isRunning = true` with `carIndex` and `distanceCovered` unchanged. -/
theorem start_restarts_or_resumes (env : Env) (s : App)
    (hN : 2 ≤ s.decodedRoute.length) (hr : s.isRunning = false) :
    (s.carIndex = s.decodedRoute.length - 1 →
      (step env s .toggle).carIndex = 0 ∧ (step env s .toggle).distanceCovered = 0 ∧
      (step env s .toggle).isRunning = true) ∧
    (s.carIndex < s.decodedRoute.length - 1 →
      (step env s .toggle).isRunning = true ∧
      (step env s .toggle).carIndex = s.carIndex ∧
      (step env s .toggle).distanceCovered = s.distanceCovered) := by
  have hnot : (!s.isRunning) = true := by rw [hr]; rfl
  constructor
  · intro hlast
    rw [step_toggle, toggleRunning_at_end s (by omega)]
    exact ⟨rfl, rfl, hnot⟩
  · intro hlt
    rw [step_toggle, toggleRunning_before_end s (by omega)]
    exact ⟨hnot, rfl, rfl⟩

theorem start_restarts_or_resumes_witness :
    2 ≤ (run twoPoints (mount twoPoints) [.toggle, .tick, .tick]).decodedRoute.length ∧
    (run twoPoints (mount twoPoints) [.toggle, .tick, .tick]).isRunning = false ∧
    (run twoPoints (mount twoPoints) [.toggle, .tick, .tick]).carIndex =
      (run twoPoints (mount twoPoints) [.toggle, .tick, .tick]).decodedRoute.length - 1 ∧
    (step twoPoints (run twoPoints (mount twoPoints) [.toggle, .tick, .tick]) .toggle).carIndex
      = 0 ∧
    (step twoPoints (run twoPoints (mount twoPoints) [.toggle, .tick, .tick])
      .toggle).distanceCovered = 0 ∧
    (step twoPoints (run twoPoints (mount twoPoints) [.toggle, .tick, .tick]) .toggle).isRunning
      = true :=
  ⟨by decide, by decide, by decide,
    (start_restarts_or_resumes twoPoints _ (by decide) (by decide)).1 (by decide)⟩

/-- C7, as stated, fails: on a route of a single waypoint `start()` is not a no-op, it
sets `isRunning` to `true`. -/
theorem start_on_single_waypoint_runs :
    (mount onePoint).decodedRoute.length < 2 ∧ (mount onePoint).isRunning = false ∧
    (step onePoint (mount onePoint) .toggle).isRunning = true ∧
    step onePoint (mount onePoint) .toggle ≠ mount onePoint := by
  decide

/-- C7, amended: for every route with fewer than 2 points, `start()` sets
`isRunning = true` with `carIndex = 0` and `distanceCovered = 0`, and the cursor never
advances: for an empty route no timer is scheduled, and for a single waypoint the first
tick only sets `isRunning` back to `false`. -/
theorem start_on_degenerate_route (env : Env) (s : App)
    (hlen : s.decodedRoute.length < 2) (hr : s.isRunning = false) :
    (step env s .toggle).isRunning = true ∧
    (step env s .toggle).carIndex = 0 ∧
    (step env s .toggle).distanceCovered = 0 ∧
    (s.decodedRoute.length = 0 → (step env s .toggle).interval = none) ∧
    (s.decodedRoute.length = 1 →
      (step env (step env s .toggle) .tick).isRunning = false ∧
      (step env (step env s .toggle) .tick).interval = none ∧
      (step env (step env s .toggle) .tick).carIndex = 0 ∧
      (step env (step env s .toggle) .tick).distanceCovered = 0 ∧
      (step env (step env s .toggle) .tick).carPosition = s.carPosition) := by
  have hnot : (!s.isRunning) = true := by rw [hr]; rfl
  have hst : step env s .toggle =
      { s with carIndex := 0, distanceCovered := 0, isRunning := !s.isRunning,
               interval := expectedInterval (toggleRunning s) } := by
    rw [step_toggle, toggleRunning_at_end s (by omega)]
  have hsync : (step env s .toggle).interval = expectedInterval (step env s .toggle) := by
    rw [step_toggle]; rfl
  refine ⟨by rw [hst]; exact hnot, by rw [hst], by rw [hst], fun h0 => ?_, fun h1 => ?_⟩
  · rw [hsync, hst]
    simp [expectedInterval, h0]
  · have hrun : (step env s .toggle).isRunning = true := by rw [hst]; exact hnot
    have hroute : (step env s .toggle).decodedRoute = s.decodedRoute := by rw [hst]
    have hc : (step env s .toggle).carIndex = 0 := by rw [hst]
    rw [step_tick_stop env _ hsync hrun (by rw [hroute]; omega) (by rw [hroute, hc]; omega)]
    refine ⟨rfl, rfl, hc, ?_, ?_⟩
    · show (step env s .toggle).distanceCovered = 0
      rw [hst]
    · show (step env s .toggle).carPosition = s.carPosition
      rw [hst]

theorem start_on_degenerate_route_witness :
    (mount onePoint).decodedRoute.length < 2 ∧ (mount onePoint).isRunning = false ∧
    (mount onePoint).decodedRoute.length = 1 ∧
    (step onePoint (mount onePoint) .toggle).isRunning = true ∧
    (step onePoint (step onePoint (mount onePoint) .toggle) .tick).isRunning = false :=
  ⟨by decide, by decide, by decide,
    (start_on_degenerate_route onePoint (mount onePoint) (by decide) (by decide)).1,
    ((start_on_degenerate_route onePoint (mount onePoint) (by decide) (by decide)).2.2.2.2
      (by decide)).1⟩

/-- C8: for every state of the component and every route key different from the
selected one, switching to that key yields `decodedRoute` = the decoding of that key's
string, `carIndex = 0`, `distanceCovered = 0` and `isRunning = false` (and the key is
selected and no timer is pending). -/
theorem route_switch_resets (env : Env) (s : App) (k : RouteKey)
    (hk : k ≠ s.selectedRoute) :
    (step env s (.setSelectedRoute k)).decodedRoute =
      (env.polylineDecode (encodedRoutes k)).map (fun p => LatLng.mk p.1 p.2) ∧
    (step env s (.setSelectedRoute k)).carIndex = 0 ∧
    (step env s (.setSelectedRoute k)).distanceCovered = 0 ∧
    (step env s (.setSelectedRoute k)).isRunning = false ∧
    (step env s (.setSelectedRoute k)).selectedRoute = k ∧
    (step env s (.setSelectedRoute k)).interval = none := by
  simp only [step, hk, if_false]
  rw [selectRoute_eq]
  exact ⟨rfl, rfl, rfl, rfl, rfl, rfl⟩

theorem route_switch_resets_witness :
    RouteKey.route2 ≠ (run threePoints (mount threePoints) [.toggle, .tick]).selectedRoute ∧
    (step threePoints (run threePoints (mount threePoints) [.toggle, .tick])
      (.setSelectedRoute .route2)).decodedRoute =
      (threePoints.polylineDecode (encodedRoutes .route2)).map (fun p => LatLng.mk p.1 p.2) ∧
    (step threePoints (run threePoints (mount threePoints) [.toggle, .tick])
      (.setSelectedRoute .route2)).carIndex = 0 ∧
    (step threePoints (run threePoints (mount threePoints) [.toggle, .tick])
      (.setSelectedRoute .route2)).distanceCovered = 0 ∧
    (step threePoints (run threePoints (mount threePoints) [.toggle, .tick])
      (.setSelectedRoute .route2)).isRunning = false ∧
    (step threePoints (run threePoints (mount threePoints) [.toggle, .tick])
      (.setSelectedRoute .route2)).selectedRoute = .route2 ∧
    (step threePoints (run threePoints (mount threePoints) [.toggle, .tick])
      (.setSelectedRoute .route2)).interval = none :=
  ⟨by decide, route_switch_resets threePoints _ .route2 (by decide)⟩

/-- C9 at its failing input: on a route of two distinct waypoints, after `start()`, the
tick to the last waypoint, the stopping tick and `start()` again, the state is reachable
over non-empty routes with `carIndex = 0`, yet `carPosition` is still the last waypoint
and differs from `decodedRoute[carIndex]`. -/
theorem location_stale_after_restart :
    ReachableNonEmpty twoPoints
      (run twoPoints (mount twoPoints) [.toggle, .tick, .tick, .toggle]) ∧
    (run twoPoints (mount twoPoints) [.toggle, .tick, .tick, .toggle]).carIndex = 0 ∧
    (run twoPoints (mount twoPoints) [.toggle, .tick, .tick, .toggle]).decodedRoute[0]? =
      some ⟨0, 0⟩ ∧
    (run twoPoints (mount twoPoints) [.toggle, .tick, .tick, .toggle]).carPosition =
      some ⟨3, 4⟩ ∧
    (run twoPoints (mount twoPoints) [.toggle, .tick, .tick, .toggle]).carPosition ≠
      (run twoPoints (mount twoPoints) [.toggle, .tick, .tick, .toggle]).decodedRoute[
        (run twoPoints (mount twoPoints) [.toggle, .tick, .tick, .toggle]).carIndex]? :=
  ⟨⟨initialState, .route1, _, by simp [twoPoints, fixture],
      fun _ _ => by simp [twoPoints, fixture], rfl⟩,
    by decide, by decide, by decide, by decide⟩

/-- C10: for every non-empty route and every `carIndex` with
`0 ≤ carIndex < decodedRoute.length`, `progress = (carIndex + 1) / decodedRoute.length * 100`
(an exact rational) satisfies `0 < progress ≤ 100`, with `progress = 100` exactly when
`carIndex = decodedRoute.length - 1`. -/
theorem progress_range (s : App) (h : s.carIndex < s.decodedRoute.length) :
    0 < progress s ∧ progress s ≤ 100 ∧
    (progress s = 100 ↔ s.carIndex = s.decodedRoute.length - 1) := by
  have hn : (0 : ℚ) < (s.decodedRoute.length : ℚ) := by
    have : 0 < s.decodedRoute.length := by omega
    exact_mod_cast this
  have hc : ((s.carIndex : ℚ) + 1) ≤ (s.decodedRoute.length : ℚ) := by
    have : s.carIndex + 1 ≤ s.decodedRoute.length := h
    exact_mod_cast this
  have hpos : (0 : ℚ) < (s.carIndex : ℚ) + 1 := by positivity
  unfold progress
  refine ⟨by positivity, ?_, ?_⟩
  · have : ((s.carIndex : ℚ) + 1) / (s.decodedRoute.length : ℚ) ≤ 1 :=
      (div_le_one hn).mpr hc
    linarith
  · constructor
    · intro heq
      have h1 : ((s.carIndex : ℚ) + 1) / (s.decodedRoute.length : ℚ) = 1 := by linarith
      rw [div_eq_one_iff_eq (ne_of_gt hn)] at h1
      have h2 : s.carIndex + 1 = s.decodedRoute.length := by exact_mod_cast h1
      omega
    · intro heq
      have h2 : s.carIndex + 1 = s.decodedRoute.length := by omega
      have h1 : ((s.carIndex : ℚ) + 1) = (s.decodedRoute.length : ℚ) := by exact_mod_cast h2
      rw [h1, div_self (ne_of_gt hn)]
      norm_num

theorem progress_range_witness :
    (mount threePoints).carIndex < (mount threePoints).decodedRoute.length ∧
    (0 < progress (mount threePoints) ∧ progress (mount threePoints) ≤ 100 ∧
    (progress (mount threePoints) = 100 ↔
      (mount threePoints).carIndex = (mount threePoints).decodedRoute.length - 1)) :=
  ⟨by decide, progress_range (mount threePoints) (by decide)⟩

end VehicleMap
